import Mathlib

set_option maxHeartbeats 1000000
set_option linter.unusedVariables false
set_option linter.unnecessarySimpa false

namespace Apexer

/-- Block size constant from the source (`BLOCK_SIZE = 4096`). -/
def BLOCK_SIZE : Nat := 4096

/-- `RoundUp(size, unit)` from the source. The source computes
`(size + unit - 1) & (~(unit - 1))` and asserts that `unit` is a power of two;
for a positive power-of-two `unit` and a non-negative Python integer `size`,
that bit trick equals clearing the low bits of `size + unit - 1`, i.e.
`(size + unit - 1) - (size + unit - 1) % unit`, which is the form used here. -/
def RoundUp (size unit : Nat) : Nat :=
  size + unit - 1 - (size + unit - 1) % unit

/-- The error kinds of the pipeline, as named by the specification; in the
source each corresponds to a `print` + `return False` in `ValidateArgs`, or to
a raised exception. -/
inductive ApexerError where
  | BuildInfoNotFound
  | ManifestNotFound
  | ManifestNotAFile
  | AndroidManifestNotFound
  | AndroidManifestNotAFile
  | InputDirNotFound
  | InputDirNotADirectory
  | OutputAlreadyExists
  | MissingKey
  | MissingFileContexts
  | MissingCannedFsConfig
  | ManifestInvalid
  | UnsafeVersionString
  | ExternalToolFailed
deriving DecidableEq

/-- A character allowed by the source's version regex character class
`[\w\.\-\_]` under `re.ASCII`: ASCII alphanumerics, `_`, `.` and `-`. -/
def isVersionChar (c : Char) : Bool :=
  c.isAlphanum || c = '_' || c = '.' || c = '-'

/-- Models `re.match(r'^[\w\.\-\_]+$', s, re.ASCII)` from
`ReplaceApexVersionPlaceholder`. `re.match` anchors at the start, and Python's
`$` matches at the end of the string or just before a single newline at the end
of the string, so the regex accepts a non-empty run of class characters,
optionally followed by one trailing newline. -/
def versionRegexMatches (s : List Char) : Bool :=
  (!s.isEmpty && s.all isVersionChar)
    || (s.getLast? == some '\n' && (!s.dropLast.isEmpty && s.dropLast.all isVersionChar))

/-- One left-to-right scan replacing each non-overlapping occurrence of `p` by
`v`, the semantics of Python's `str.replace` for a non-empty pattern `p`
(the source never calls it with an empty placeholder; for totality an empty
pattern returns the input unchanged here). -/
def listReplace (p v : List Char) (s : List Char) : List Char :=
  if hp : p = [] then s
  else
    match s with
    | [] => []
    | c :: rest =>
      if p.isPrefixOf (c :: rest) then
        v ++ listReplace p v ((c :: rest).drop p.length)
      else
        c :: listReplace p v rest
termination_by s.length
decreasing_by
  · have hp1 : 0 < p.length := List.length_pos.mpr hp
    simp only [List.length_drop, List.length_cons]
    omega
  · simp

/-- Python `s.replace(p, v)` on strings (non-empty `p`). -/
def pyReplace (p v s : String) : String :=
  String.mk (listReplace p.data v.data s.data)

/-- One `os.walk` visit of the input tree, as consumed by
`ReplaceApexVersionPlaceholder`: the visited directory's path relative to
`args.input_dir` (the source's `root_relative` before substitution) and the
names of the files it contains. -/
structure WalkDir where
  relPath : String
  files : List String
deriving DecidableEq

/-- `ReplaceApexVersionPlaceholder` from the source. It first validates the
version string against the regex (raising the `UnsafeVersionString` error
otherwise), then rewrites the placeholder in the canned fs-config's text
content (when a config is given; `None` for zip apexes), and then, for every
file of the walked input tree, rewrites the placeholder in the file's relative
directory path only — the filename is passed through unchanged.  The returned
pairs `(root_relative after substitution, filename)` are exactly the data from
which the source computes each destination
`os.path.normpath(os.path.join(staging_input_dir, root_relative, f))` before
copying; the copy itself is I/O. -/
def ReplaceApexVersionPlaceholder (placeholder version : String)
    (cannedFsConfig : Option String) (inputWalk : List WalkDir) :
    Except ApexerError (Option String × List (String × String)) :=
  if !versionRegexMatches version.data then
    .error .UnsafeVersionString
  else
    .ok (cannedFsConfig.map (fun content => pyReplace placeholder version content),
      inputWalk.flatMap (fun d =>
        d.files.map (fun f => (pyReplace placeholder version d.relPath, f))))

/-- One `os.walk` visit as consumed by `GetDirSize` and
`GetFilesAndDirsCount`: the byte size reported for the visited directory
itself (`os.path.getsize(dirpath)`), the number of subdirectory names the
visit yields, the sizes of the entries of `filenames` that are regular files
(`os.path.isfile` holds), and the number of `filenames` entries that are not
regular files (these are skipped by `GetDirSize` but counted by
`GetFilesAndDirsCount`). -/
structure WalkEntry where
  dirSize : Nat
  numSubdirs : Nat
  fileSizes : List Nat
  numNonRegularFiles : Nat
deriving DecidableEq

/-- `GetDirSize` from the source: over every `os.walk` visit, the directory's
own size rounded up to `BLOCK_SIZE`, plus each regular file's size rounded up
to `BLOCK_SIZE`. -/
def GetDirSize (walk : List WalkEntry) : Nat :=
  (walk.map (fun e =>
    RoundUp e.dirSize BLOCK_SIZE + (e.fileSizes.map (fun n => RoundUp n BLOCK_SIZE)).sum)).sum

/-- `GetFilesAndDirsCount` from the source: `len(dirs) + len(files)` summed
over every `os.walk` visit. -/
def GetFilesAndDirsCount (walk : List WalkEntry) : Nat :=
  (walk.map (fun e => e.numSubdirs + (e.fileSizes.length + e.numNonRegularFiles))).sum

/-- The numeric parameters `CreateImageExt4` passes to the `mke2fs`
invocation: the image size argument (`str(size_in_mb) + 'M'`, in mebibytes)
and the inode count (`-N`). -/
structure Ext4FormatParams where
  sizeInMb : Nat
  inodeNum : Nat
deriving DecidableEq

/-- The sizing computation of `CreateImageExt4` from the source:
`size_in_mb = GetDirSize(staging_input_dir) // (1024 * 1024); size_in_mb += 16`
and `inode_num = GetFilesAndDirsCount(staging_input_dir) +
(GetFilesAndDirsCount(manifests_dir) + 11)`. -/
def CreateImageExt4Params (stagingWalk manifestsWalk : List WalkEntry) : Ext4FormatParams :=
  { sizeInMb := GetDirSize stagingWalk / (1024 * 1024) + 16
    inodeNum := GetFilesAndDirsCount stagingWalk + (GetFilesAndDirsCount manifestsWalk + 11) }

/-- The partition size `SignImage` passes to `avbtool resize_image` after
attaching the footer: `RoundUp(vbmeta_offset + vbmeta_size, BLOCK_SIZE) +
BLOCK_SIZE`, where the offset and size are the numbers reported by
`avbtool info_image` for the just-attached footer. -/
def SignImagePartitionSize (vbmetaOffset vbmetaSize : Nat) : Nat :=
  RoundUp (vbmetaOffset + vbmetaSize) BLOCK_SIZE + BLOCK_SIZE

/-- The post-processing step at the end of `CreateImageErofs`: the formatted
image's size is read back, and if it is exactly 4096 bytes the file is
extended with `fallocate -l 8k` to 8192 bytes; any other size is left
untouched. -/
def CreateImageErofsPostSize (imageSize : Nat) : Nat :=
  if imageSize = 4096 then 8192 else imageSize

/-- One external-tool invocation: the binary name passed to `RunCommand` and
the accepted `expected_return_values` set (as a list). -/
structure Invocation where
  tool : String
  expectedReturnValues : List Nat
deriving DecidableEq

/-- The exit-code check of `RunCommand` from the source: the tool's return
code must be in `expected_return_values` (default `{0}`), otherwise the
`assert` fails and the build aborts. -/
def RunCommandCheck (expectedReturnValues : List Nat) (returncode : Nat) :
    Except ApexerError Nat :=
  if returncode ∈ expectedReturnValues then .ok returncode else .error .ExternalToolFailed

/-- Sequential synchronous execution of invocations with their observed exit
codes: the first unexpected exit code aborts the remainder (no retry). -/
def runInvocations : List (Invocation × Nat) → Except ApexerError Unit
  | [] => .ok ()
  | (inv, rc) :: rest =>
    match RunCommandCheck inv.expectedReturnValues rc with
    | .error e => .error e
    | .ok _ => runInvocations rest

/-- The `RunCommand` invocations of `CreateImageExt4`, in source order:
`mke2fs`, `sefcontext_compile`, `e2fsdroid` (staging dir), `e2fsdroid`
(manifests dir), `resize2fs`; all with the default accepted set `{0}`. -/
def CreateImageExt4Invocations : List Invocation :=
  [⟨"mke2fs", [0]⟩, ⟨"sefcontext_compile", [0]⟩, ⟨"e2fsdroid", [0]⟩,
    ⟨"e2fsdroid", [0]⟩, ⟨"resize2fs", [0]⟩]

/-- The `RunCommand` invocations of `CreateImageF2fs`, in source order:
`fallocate`, `make_f2fs` with `{0}`, then the two `sload_f2fs` loads with the
explicit `expected_return_values={0, 1}`. -/
def CreateImageF2fsInvocations : List Invocation :=
  [⟨"/usr/bin/fallocate", [0]⟩, ⟨"make_f2fs", [0]⟩,
    ⟨"sload_f2fs", [0, 1]⟩, ⟨"sload_f2fs", [0, 1]⟩]

/-- The `RunCommand` invocations of `CreateImageErofs`, in source order:
`cp`, `make_erofs`, `ls` (size probe), and — only when the probed size is
exactly 4096 — the padding `fallocate`; all with the default set `{0}`. -/
def CreateImageErofsInvocations (imageSize : Nat) : List Invocation :=
  [⟨"/bin/cp", [0]⟩, ⟨"make_erofs", [0]⟩, ⟨"/bin/ls", [0]⟩]
    ++ (if imageSize = 4096 then [⟨"/usr/bin/fallocate", [0]⟩] else [])

/-- The `RunCommand` invocations of `SignImage`, in source order:
`avbtool add_hashtree_footer`, `avbtool info_image`, `avbtool resize_image`;
all with the default set `{0}`. -/
def SignImageInvocations : List Invocation :=
  [⟨"avbtool", [0]⟩, ⟨"avbtool", [0]⟩, ⟨"avbtool", [0]⟩]

/-- The backend dispatch of `CreateImage` from the source, as the invocation
sequence it performs. -/
def CreateImageInvocations (fsType : String) (erofsImageSize : Nat) : List Invocation :=
  if fsType = "ext4" then CreateImageExt4Invocations
  else if fsType = "f2fs" then CreateImageF2fsInvocations
  else if fsType = "erofs" then CreateImageErofsInvocations erofsImageSize
  else []

/-- The invocation sequence of `CreateApexPayload`: for the `image` payload
type, the chosen backend then (unless the payload is left unsigned)
`SignImage`; for the `zip` payload type, a single `soong_zip`. -/
def CreateApexPayloadInvocations (payloadType fsType : String)
    (unsignedPayload : Bool) (erofsImageSize : Nat) : List Invocation :=
  if payloadType = "image" then
    CreateImageInvocations fsType erofsImageSize
      ++ (if unsignedPayload then [] else SignImageInvocations)
  else
    [⟨"soong_zip", [0]⟩]

/-- The full external-tool invocation sequence of a successful `CreateApex`
run: the payload invocations, then — unless one of the payload-only output
modes is set — the `aapt2 link` call of the container assembly. -/
def CreateApexInvocations (payloadType fsType : String)
    (unsignedPayload payloadOnly : Bool) (erofsImageSize : Nat) : List Invocation :=
  CreateApexPayloadInvocations payloadType fsType unsignedPayload erofsImageSize
    ++ (if payloadOnly then [] else [⟨"aapt2", [0]⟩])

/-- The accepted-exit-code discipline the spec describes: an invocation
accepts exactly `{0}`, except the flash-filesystem loader `sload_f2fs`, which
accepts `{0, 1}`. -/
def expectedOk (i : Invocation) : Prop :=
  i.expectedReturnValues = if i.tool = "sload_f2fs" then [0, 1] else [0]

instance (i : Invocation) : Decidable (expectedOk i) := by
  unfold expectedOk
  infer_instance

/-- The filesystem facts and resolved options `ValidateArgs` consults, in the
order the source consults them.  Boolean fields mirror the `os.path` probes
and the presence of optional arguments. -/
structure ApexerEnv where
  buildInfoProvided : Bool
  buildInfoExists : Bool
  manifestExists : Bool
  manifestIsFile : Bool
  androidManifestProvided : Bool
  androidManifestExists : Bool
  androidManifestIsFile : Bool
  inputDirExists : Bool
  inputDirIsDir : Bool
  outputExists : Bool
  force : Bool
  payloadType : String
  payloadFsType : String
  keyProvided : Bool
  unsignedPayload : Bool
  unsignedPayloadOnly : Bool
  payloadOnly : Bool
  fileContextsProvided : Bool
  cannedFsConfigProvided : Bool
  manifestParses : Bool
  versionString : String
  erofsImageSize : Nat
deriving DecidableEq

/-- `--unsigned_payload_only` implies `--unsigned_payload`
(`ValidateArgs` sets `args.unsigned_payload = True`). -/
def effUnsignedPayload (e : ApexerEnv) : Bool :=
  e.unsignedPayload || e.unsignedPayloadOnly

/-- `--unsigned_payload_only` implies `--payload_only`
(`ValidateArgs` sets `args.payload_only = True`). -/
def effPayloadOnly (e : ApexerEnv) : Bool :=
  e.payloadOnly || e.unsignedPayloadOnly

/-- `ValidateArgs` from the source, with each `print` + `return False` path
mapped to its named error, in the source's check order: build-info file,
manifest existence and file-ness, explicit AndroidManifest existence and
file-ness, input directory, refusing to overwrite the output without
`--force`, then the `image`-payload requirements (key unless the payload
stays unsigned; file contexts and canned fs-config unless a build-info record
supplies them). -/
def ValidateArgs (e : ApexerEnv) : Except ApexerError Unit :=
  if e.buildInfoProvided && !e.buildInfoExists then .error .BuildInfoNotFound
  else if !e.manifestExists then .error .ManifestNotFound
  else if !e.manifestIsFile then .error .ManifestNotAFile
  else if e.androidManifestProvided && !e.androidManifestExists then
    .error .AndroidManifestNotFound
  else if e.androidManifestProvided && !e.androidManifestIsFile then
    .error .AndroidManifestNotAFile
  else if !e.inputDirExists then .error .InputDirNotFound
  else if !e.inputDirIsDir then .error .InputDirNotADirectory
  else if !e.force && e.outputExists then .error .OutputAlreadyExists
  else if e.payloadType = "image" && (!e.keyProvided && !effUnsignedPayload e) then
    .error .MissingKey
  else if e.payloadType = "image" && (!e.fileContextsProvided && !e.buildInfoProvided) then
    .error .MissingFileContexts
  else if e.payloadType = "image" && (!e.cannedFsConfigProvided && !e.buildInfoProvided) then
    .error .MissingCannedFsConfig
  else .ok ()

/-- The control flow of `CreateApex` up to the point external tools start
running, paired with the external-tool invocations the run performs.
`ValidateArgs` failures, manifest-validation failures
(`ValidateApexManifest`) and the version-placeholder validation of
`ReplaceApexVersionPlaceholder` all happen before any `RunCommand` call, so
those failure paths perform no invocation.  A run that reaches payload
construction performs the `CreateApexInvocations` sequence. -/
def CreateApexTrace (e : ApexerEnv) : Except ApexerError Unit × List Invocation :=
  match ValidateArgs e with
  | .error err => (.error err, [])
  | .ok _ =>
    if !e.manifestParses then (.error .ManifestInvalid, [])
    else if !versionRegexMatches e.versionString.data then (.error .UnsafeVersionString, [])
    else (.ok (), CreateApexInvocations e.payloadType e.payloadFsType
        (effUnsignedPayload e) (effPayloadOnly e) e.erofsImageSize)

/-- A configuration whose output path already exists and whose force flag is
unset, but whose manifest path is missing. -/
def envMissingManifestExistingOutput : ApexerEnv :=
  { buildInfoProvided := false, buildInfoExists := false
    manifestExists := false, manifestIsFile := false
    androidManifestProvided := false, androidManifestExists := false
    androidManifestIsFile := false
    inputDirExists := true, inputDirIsDir := true
    outputExists := true, force := false
    payloadType := "image", payloadFsType := "ext4"
    keyProvided := true, unsignedPayload := false, unsignedPayloadOnly := false
    payloadOnly := false
    fileContextsProvided := true, cannedFsConfigProvided := true
    manifestParses := true, versionString := "1", erofsImageSize := 0 }

/-- A configuration passing every validation check before the output check,
with the output path existing and the force flag unset. -/
def envOutputExists : ApexerEnv :=
  { buildInfoProvided := false, buildInfoExists := false
    manifestExists := true, manifestIsFile := true
    androidManifestProvided := false, androidManifestExists := false
    androidManifestIsFile := false
    inputDirExists := true, inputDirIsDir := true
    outputExists := true, force := false
    payloadType := "image", payloadFsType := "ext4"
    keyProvided := true, unsignedPayload := false, unsignedPayloadOnly := false
    payloadOnly := false
    fileContextsProvided := true, cannedFsConfigProvided := true
    manifestParses := true, versionString := "1", erofsImageSize := 0 }

/-- One central-directory entry read from an input zip by `MergeZips`
(`inzip.infolist()`): its filename, timestamp tuple, external attributes, the
byte length of its extra field, and the number of bytes `out.writestr` will
append as the entry's (re-compressed) file data.  The local file header
`info.FileHeader()` serializes to 30 fixed bytes, the encoded filename, and
the extra field; file sizes are assumed below the zip64 threshold, so no
zip64 extra record is appended. -/
structure ZipEntry where
  filename : String
  dateTime : Nat × Nat × Nat × Nat × Nat × Nat
  externalAttr : Nat
  extraLen : Nat
  outDataLen : Nat
deriving DecidableEq

/-- An entry as written to the output zip by `MergeZips`: the (possibly
reset) metadata, the length of the extra field actually written, and the
offset within the output archive at which the entry's data bytes begin. -/
structure MergedEntry where
  filename : String
  dateTime : Nat × Nat × Nat × Nat × Nat × Nat
  externalAttr : Nat
  extraLen : Nat
  dataStart : Nat
deriving DecidableEq

/-- The per-entry loop of `MergeZips` from the source, threading the output
file position (`out.fp.tell()`).  For every entry the timestamp is reset to
`(1980, 1, 1, 0, 0, 0)` and the external attributes to `0x81A40000`; for the
entry named `apex_payload.img`, `data_offset` is computed as the current
position plus `len(info.FileHeader())` — the header length still including
the entry's incoming extra field — and the extra field is then replaced by
`BLOCK_SIZE - data_offset % BLOCK_SIZE` NUL bytes.  The entry's data bytes
begin after the header as finally written (30 bytes + filename + new extra). -/
def mergeZipsGo (pos : Nat) : List ZipEntry → List MergedEntry
  | [] => []
  | e :: rest =>
    let dataOffset := pos + (30 + e.filename.utf8ByteSize + e.extraLen)
    let newExtraLen :=
      if e.filename = "apex_payload.img" then BLOCK_SIZE - dataOffset % BLOCK_SIZE
      else e.extraLen
    let dataStart := pos + (30 + e.filename.utf8ByteSize + newExtraLen)
    { filename := e.filename
      dateTime := (1980, 1, 1, 0, 0, 0)
      externalAttr := 0x81A40000
      extraLen := newExtraLen
      dataStart := dataStart } :: mergeZipsGo (dataStart + e.outDataLen) rest

/-- `MergeZips(zip_files, output_zip)` from the source: every entry of every
input zip, in order, copied into the single output zip starting at position
0. -/
def MergeZips (zipFiles : List (List ZipEntry)) : List MergedEntry :=
  mergeZipsGo 0 zipFiles.flatten

/-- 32-bit truncation used throughout the SHA-256 model. -/
def mod32 (n : Nat) : Nat := n % 4294967296

/-- Right rotation of a 32-bit word. -/
def rotr32 (x n : Nat) : Nat :=
  ((x >>> n) ||| (x <<< (32 - n))) &&& 4294967295

/-- The SHA-256 initial hash value (FIPS 180-4), as implemented by
`hashlib.sha256`, written in decimal. -/
def sha256InitH : List Nat :=
  [1779033703, 3144134277, 1013904242, 2773480762,
   1359893119, 2600822924, 528734635, 1541459225]

/-- The 64 SHA-256 round constants (FIPS 180-4), written in decimal. -/
def sha256K : List Nat :=
  [1116352408, 1899447441, 3049323471, 3921009573, 961987163, 1508970993,
   2453635748, 2870763221, 3624381080, 310598401, 607225278, 1426881987,
   1925078388, 2162078206, 2614888103, 3248222580, 3835390401, 4022224774,
   264347078, 604807628, 770255983, 1249150122, 1555081692, 1996064986,
   2554220882, 2821834349, 2952996808, 3210313671, 3336571891, 3584528711,
   113926993, 338241895, 666307205, 773529912, 1294757372, 1396182291,
   1695183700, 1986661051, 2177026350, 2456956037, 2730485921, 2820302411,
   3259730800, 3345764771, 3516065817, 3600352804, 4094571909, 275423344,
   430227734, 506948616, 659060556, 883997877, 958139571, 1322822218,
   1537002063, 1747873779, 1955562222, 2024104815, 2227730452, 2361852424,
   2428436474, 2756734187, 3204031479, 3329325298]

/-- The 8-byte big-endian encoding of the message bit length. -/
def bigEndian8 (n : Nat) : List Nat :=
  [(n >>> 56) &&& 255, (n >>> 48) &&& 255, (n >>> 40) &&& 255, (n >>> 32) &&& 255,
   (n >>> 24) &&& 255, (n >>> 16) &&& 255, (n >>> 8) &&& 255, n &&& 255]

/-- SHA-256 message padding: a `0x80` byte, zeros up to 56 mod 64, then the
bit length as a 64-bit big-endian integer. -/
def sha256Pad (msg : List Nat) : List Nat :=
  msg ++ [0x80] ++ List.replicate ((119 - msg.length % 64) % 64) 0
    ++ bigEndian8 (msg.length * 8)

/-- Big-endian packing of bytes into 32-bit words. -/
def bytesToWords : List Nat → List Nat
  | b0 :: b1 :: b2 :: b3 :: rest =>
    (((b0 <<< 24) ||| (b1 <<< 16)) ||| ((b2 <<< 8) ||| b3)) :: bytesToWords rest
  | _ => []

/-- Split a word list into 16-word blocks (the padded message is always a
whole number of blocks; a ragged tail would be dropped). -/
def wordBlocks : List Nat → List (List Nat)
  | w0 :: w1 :: w2 :: w3 :: w4 :: w5 :: w6 :: w7 ::
      w8 :: w9 :: w10 :: w11 :: w12 :: w13 :: w14 :: w15 :: rest =>
    [w0, w1, w2, w3, w4, w5, w6, w7, w8, w9, w10, w11, w12, w13, w14, w15]
      :: wordBlocks rest
  | _ => []

/-- Message-schedule extension: append `n` further words
`w[t] = σ1(w[t-2]) + w[t-7] + σ0(w[t-15]) + w[t-16] mod 2^32`. -/
def scheduleExtend : Nat → List Nat → List Nat
  | 0, w => w
  | n + 1, w =>
    let t := w.length
    let w15 := w.getD (t - 15) 0
    let w2 := w.getD (t - 2) 0
    let s0 := rotr32 w15 7 ^^^ rotr32 w15 18 ^^^ (w15 >>> 3)
    let s1 := rotr32 w2 17 ^^^ rotr32 w2 19 ^^^ (w2 >>> 10)
    scheduleExtend n (w ++ [mod32 (w.getD (t - 16) 0 + s0 + w.getD (t - 7) 0 + s1)])

/-- One SHA-256 compression round on the register list `[a,b,c,d,e,f,g,h]`. -/
def compressStep (regs : List Nat) (k w : Nat) : List Nat :=
  match regs with
  | [a, b, c, d, e, f, g, h] =>
    let S1 := rotr32 e 6 ^^^ rotr32 e 11 ^^^ rotr32 e 25
    let ch := (e &&& f) ^^^ ((e ^^^ 4294967295) &&& g)
    let temp1 := mod32 (h + S1 + ch + k + w)
    let S0 := rotr32 a 2 ^^^ rotr32 a 13 ^^^ rotr32 a 22
    let maj := (a &&& b) ^^^ (a &&& c) ^^^ (b &&& c)
    let temp2 := mod32 (S0 + maj)
    [mod32 (temp1 + temp2), a, b, c, mod32 (d + temp1), e, f, g]
  | other => other

/-- SHA-256 compression of one 16-word block into the running hash. -/
def compressBlock (h : List Nat) (block : List Nat) : List Nat :=
  let w := scheduleExtend 48 block
  let regs := (sha256K.zip w).foldl (fun r kw => compressStep r kw.1 kw.2) h
  (h.zip regs).map (fun p => mod32 (p.1 + p.2))

/-- The SHA-256 digest of a byte string, as eight 32-bit words. -/
def sha256Words (msg : List Nat) : List Nat :=
  (wordBlocks (bytesToWords (sha256Pad msg))).foldl compressBlock sha256InitH

/-- Lower-case hexadecimal digit. -/
def hexDigit (n : Nat) : Char :=
  if n < 10 then Char.ofNat (48 + n) else Char.ofNat (87 + n)

/-- Eight-digit lower-case hexadecimal rendering of a 32-bit word. -/
def wordToHex (w : Nat) : List Char :=
  [hexDigit ((w >>> 28) &&& 15), hexDigit ((w >>> 24) &&& 15),
   hexDigit ((w >>> 20) &&& 15), hexDigit ((w >>> 16) &&& 15),
   hexDigit ((w >>> 12) &&& 15), hexDigit ((w >>> 8) &&& 15),
   hexDigit ((w >>> 4) &&& 15), hexDigit (w &&& 15)]

/-- `hashlib.sha256(msg).hexdigest()`: the SHA-256 digest of the byte string,
rendered as 64 lower-case hexadecimal characters. -/
def sha256Hex (msg : List Nat) : String :=
  String.mk ((sha256Words msg).flatMap wordToHex)

/-- The APEX manifest as the pipeline sees it: the schema-level fields the
spec's data model names, plus the bytes `manifest_apex.SerializeToString()`
yields — the protobuf encoding itself is produced by the external
`apex_manifest` schema module, which is outside the packaging core, so the
serialized form is carried as data. -/
structure ApexManifest where
  name : String
  version : Nat
  versionName : Option String
  serialized : List Nat
deriving DecidableEq

/-- The salt `SignImage` passes to `avbtool add_hashtree_footer`:
`hashlib.sha256(manifest_apex.SerializeToString()).hexdigest()`. -/
def SignImageSalt (m : ApexManifest) : String :=
  sha256Hex m.serialized

/-! Helper lemmas. -/

/-- `RoundUp n u` is a multiple of `u`, is at least `n`, and is the least
multiple of `u` that is at least `n`. -/
theorem RoundUp_props (n u : Nat) (hu : 0 < u) :
    u ∣ RoundUp n u ∧ n ≤ RoundUp n u ∧
      ∀ m, u ∣ m → n ≤ m → RoundUp n u ≤ m := by
  have hdm := Nat.div_add_mod (n + u - 1) u
  have hlt : (n + u - 1) % u < u := Nat.mod_lt _ hu
  have hq : RoundUp n u = u * ((n + u - 1) / u) := by
    unfold RoundUp
    omega
  refine ⟨⟨(n + u - 1) / u, hq⟩, by unfold RoundUp; omega, ?_⟩
  rintro m ⟨k, rfl⟩ hm
  have hexp : (k + 1) * u = u * k + u := by ring
  have h3 : (n + u - 1) / u < k + 1 := by
    apply (Nat.div_lt_iff_lt_mul hu).mpr
    omega
  have h4 : (n + u - 1) / u ≤ k := by omega
  calc RoundUp n u = u * ((n + u - 1) / u) := hq
    _ ≤ u * k := Nat.mul_le_mul_left u h4

/-- If `p` does not occur anywhere in `s`, the replacement scan leaves `s`
unchanged. -/
theorem listReplace_eq_self_of_no_occurrence (p v : List Char) :
    ∀ s : List Char, (¬ ∃ a b, s = a ++ p ++ b) → listReplace p v s = s := by
  intro s hocc
  by_cases hp : p = []
  · exact absurd ⟨[], s, by simp [hp]⟩ hocc
  · induction s with
    | nil => rw [listReplace.eq_def]; simp [hp]
    | cons c rest ih =>
      rw [listReplace.eq_def]
      simp only [hp, dite_false]
      have hpre : ¬ p.isPrefixOf (c :: rest) = true := by
        intro hpre
        rcases List.isPrefixOf_iff_prefix.mp hpre with ⟨t, ht⟩
        exact hocc ⟨[], t, by simp [ht]⟩
      simp only [hpre]
      simp only [if_false, Bool.false_eq_true]
      have : (¬ ∃ a b, rest = a ++ p ++ b) := by
        rintro ⟨a, b, rfl⟩
        exact hocc ⟨c :: a, b, by simp⟩
      rw [ih this]

/-- The scan replaces the leftmost occurrence: if no occurrence of `p` starts
inside `a`, then replacing in `a ++ p ++ b` keeps `a`, substitutes `v` for
that occurrence of `p`, and continues in `b`. -/
theorem listReplace_leftmost (p v : List Char) (hp : p ≠ []) :
    ∀ a b : List Char,
      (∀ a₁ a₂, a = a₁ ++ a₂ → a₂ ≠ [] → ¬ p <+: (a₂ ++ p ++ b)) →
      listReplace p v (a ++ p ++ b) = a ++ v ++ listReplace p v b := by
  intro a
  induction a with
  | nil =>
    intro b hmin
    obtain ⟨c, p', rfl⟩ : ∃ c p', p = c :: p' := by
      cases p with
      | nil => exact absurd rfl hp
      | cons c p' => exact ⟨c, p', rfl⟩
    simp only [List.nil_append]
    rw [listReplace.eq_def]
    simp only [hp, dite_false]
    have hpre : (c :: p').isPrefixOf (c :: (p' ++ b)) = true := by
      apply List.isPrefixOf_iff_prefix.mpr
      exact ⟨b, by simp⟩
    simp only [List.cons_append, hpre, if_true]
    congr 1
    have : (c :: (p' ++ b)).drop (c :: p').length = b := by
      simpa using List.drop_left (c :: p') b
    rw [this]
  | cons c a' ih =>
    intro b hmin
    have hnotpre : ¬ p <+: ((c :: a') ++ p ++ b) := hmin [] (c :: a') rfl (by simp)
    rw [List.cons_append, List.cons_append, listReplace]
    simp only [hp, dite_false]
    have hpre : ¬ p.isPrefixOf (c :: (a' ++ p ++ b)) = true := by
      intro hx
      exact hnotpre (by simpa using List.isPrefixOf_iff_prefix.mp hx)
    simp only [hpre, if_false, Bool.false_eq_true]
    rw [ih b (fun a₁ a₂ hsplit hne => hmin (c :: a₁) a₂ (by rw [hsplit]; rfl) hne)]
    rfl

/-- Exact characterization of the version regex: it accepts precisely the
non-empty strings over `[A-Za-z0-9_.-]`, optionally followed by one trailing
newline (Python's `$` matches just before a trailing newline). -/
theorem versionRegexMatches_iff (s : List Char) :
    versionRegexMatches s = true ↔
      (s ≠ [] ∧ ∀ c ∈ s, isVersionChar c = true) ∨
        (∃ w, s = w ++ ['\n'] ∧ w ≠ [] ∧ ∀ c ∈ w, isVersionChar c = true) := by
  unfold versionRegexMatches
  simp only [Bool.or_eq_true, Bool.and_eq_true, Bool.not_eq_true',
    List.isEmpty_eq_false, List.all_eq_true, beq_iff_eq]
  constructor
  · rintro (⟨hne, hall⟩ | ⟨hlast, hne, hall⟩)
    · exact Or.inl ⟨hne, hall⟩
    · right
      have hsne : s ≠ [] := by
        intro h
        rw [h] at hlast
        simp at hlast
      refine ⟨s.dropLast, ?_, hne, hall⟩
      have hgl : s.getLast hsne = '\n' := by
        have := List.getLast?_eq_getLast s hsne
        rw [this] at hlast
        exact Option.some.inj hlast
      rw [← hgl]
      exact (List.dropLast_append_getLast hsne).symm
  · rintro (⟨hne, hall⟩ | ⟨w, rfl, hne, hall⟩)
    · exact Or.inl ⟨hne, hall⟩
    · right
      refine ⟨?_, ?_, ?_⟩
      · rw [List.getLast?_concat]
      · simpa using hne
      · simpa using hall

/-- Each entry written by the merge loop has the reset timestamp and file
mode, and — provided the payload entry arrived with an empty extra field —
a block-aligned data offset. -/
theorem mergeZipsGo_entry_props :
    ∀ (es : List ZipEntry) (pos : Nat),
      (∀ e ∈ es, e.filename = "apex_payload.img" → e.extraLen = 0) →
      ∀ m ∈ mergeZipsGo pos es,
        m.dateTime = (1980, 1, 1, 0, 0, 0) ∧ m.externalAttr = 0x81A40000 ∧
          (m.filename = "apex_payload.img" → m.dataStart % BLOCK_SIZE = 0) := by
  intro es
  induction es with
  | nil =>
    intro pos h m hm
    simp [mergeZipsGo] at hm
  | cons e rest ih =>
    intro pos h m hm
    simp only [mergeZipsGo, List.mem_cons] at hm
    rcases hm with rfl | hm
    · refine ⟨rfl, rfl, ?_⟩
      intro hname
      simp only at hname
      have hz : e.extraLen = 0 := h e (List.mem_cons_self e rest) hname
      simp only [hname, if_true, hz, BLOCK_SIZE] at *
      omega
    · exact ih _ (fun e' he' => h e' (List.mem_cons_of_mem e he')) m hm

/-- Every invocation of the pipeline accepts exactly `{0}`, except
`sload_f2fs` which accepts `{0, 1}`. -/
theorem createApexInvocations_expected :
    ∀ (payloadType fsType : String) (unsignedPayload payloadOnly : Bool)
      (erofsImageSize : Nat),
      ∀ inv ∈ CreateApexInvocations payloadType fsType unsignedPayload
          payloadOnly erofsImageSize, expectedOk inv := by
  intro payloadType fsType unsignedPayload payloadOnly erofsImageSize
  have happ : ∀ {l₁ l₂ : List Invocation}, (∀ i ∈ l₁, expectedOk i) →
      (∀ i ∈ l₂, expectedOk i) → ∀ i ∈ l₁ ++ l₂, expectedOk i := by
    intro l₁ l₂ h₁ h₂ i hi
    rcases List.mem_append.mp hi with h | h
    exacts [h₁ i h, h₂ i h]
  have herofs : ∀ i ∈ CreateImageErofsInvocations erofsImageSize, expectedOk i := by
    unfold CreateImageErofsInvocations
    refine happ (by decide) ?_
    split_ifs <;> decide
  have himg : ∀ i ∈ CreateImageInvocations fsType erofsImageSize, expectedOk i := by
    unfold CreateImageInvocations
    split_ifs
    · decide
    · decide
    · exact herofs
    · decide
  have hpay : ∀ i ∈ CreateApexPayloadInvocations payloadType fsType unsignedPayload
      erofsImageSize, expectedOk i := by
    unfold CreateApexPayloadInvocations
    split_ifs
    · exact happ himg (by decide)
    · exact happ himg (by decide)
    · decide
  unfold CreateApexInvocations
  refine happ hpay ?_
  split_ifs <;> decide

/-! The claims. -/

/-- C1 (counterexample): the claimed block alignment fails when the payload
entry arrives with a non-empty extra field, because `MergeZips` computes the
padding from a header length that still includes the old extra field and then
replaces that field: a one-byte incoming extra leaves the data at offset 4095. -/
theorem MergeZips_alignment_claim_counterexample :
    ¬ ∀ m ∈ MergeZips
        [[⟨"AndroidManifest.xml", (2020, 1, 1, 0, 0, 0), 0, 0, 10⟩],
         [⟨"apex_payload.img", (2020, 1, 1, 0, 0, 0), 0, 1, 5⟩]],
        (m.filename = "apex_payload.img" → m.dataStart % BLOCK_SIZE = 0) := by
  decide

/-- C1 (amended): for every list of input archives, every entry copied by
`MergeZips` has its timestamp reset to 1980-01-01 00:00:00 and its permission
bits reset to `0x81A40000`, and — provided every `apex_payload.img` entry
arrives with an empty extra field, as the entries produced by `CreateZip`
do — the payload entry's data bytes begin at a multiple of the 4096-byte
block size. -/
theorem MergeZips_resets_metadata_and_aligns_payload :
    ∀ zipFiles : List (List ZipEntry),
      (∀ e ∈ zipFiles.flatten, e.filename = "apex_payload.img" → e.extraLen = 0) →
      ∀ m ∈ MergeZips zipFiles,
        m.dateTime = (1980, 1, 1, 0, 0, 0) ∧ m.externalAttr = 0x81A40000 ∧
          (m.filename = "apex_payload.img" → m.dataStart % BLOCK_SIZE = 0) :=
  fun zipFiles h => mergeZipsGo_entry_props zipFiles.flatten 0 h

/-- C1 (witness): the amended theorem applied to a concrete pair of input
archives; the payload entry lands at data offset 4096 with 3991 bytes of
padding. -/
theorem MergeZips_resets_metadata_and_aligns_payload_witness :
    ({ filename := "apex_payload.img", dateTime := (1980, 1, 1, 0, 0, 0)
       externalAttr := 0x81A40000, extraLen := 3991, dataStart := 4096 } :
        MergedEntry).dateTime = (1980, 1, 1, 0, 0, 0) ∧
      ({ filename := "apex_payload.img", dateTime := (1980, 1, 1, 0, 0, 0)
         externalAttr := 0x81A40000, extraLen := 3991, dataStart := 4096 } :
          MergedEntry).externalAttr = 0x81A40000 ∧
      (({ filename := "apex_payload.img", dateTime := (1980, 1, 1, 0, 0, 0)
          externalAttr := 0x81A40000, extraLen := 3991, dataStart := 4096 } :
           MergedEntry).filename = "apex_payload.img" →
        ({ filename := "apex_payload.img", dateTime := (1980, 1, 1, 0, 0, 0)
           externalAttr := 0x81A40000, extraLen := 3991, dataStart := 4096 } :
            MergedEntry).dataStart % BLOCK_SIZE = 0) :=
  MergeZips_resets_metadata_and_aligns_payload
    [[⟨"AndroidManifest.xml", (2020, 1, 1, 0, 0, 0), 0, 0, 10⟩],
     [⟨"apex_payload.img", (2020, 1, 1, 0, 0, 0), 0, 0, 5⟩]]
    (by decide)
    ⟨"apex_payload.img", (1980, 1, 1, 0, 0, 0), 0x81A40000, 3991, 4096⟩
    (by decide)

/-- C2: for every version string accepted by validation,
`ReplaceApexVersionPlaceholder` rewrites the placeholder everywhere in the
ownership table's text content (via the replace-all scan), and rewrites each
copied file's relative directory path while passing the filename through
unchanged; the accompanying conjuncts pin the replace-all semantics down: a
string with no occurrence of the placeholder is unchanged, and the scan
substitutes the leftmost occurrence and continues after it. -/
theorem ReplaceApexVersionPlaceholder_rewrites_dirs_not_filenames :
    ∀ (placeholder version : String) (cfg : Option String) (walk : List WalkDir),
      versionRegexMatches version.data = true →
      ReplaceApexVersionPlaceholder placeholder version cfg walk =
          .ok (cfg.map (fun content => pyReplace placeholder version content),
            walk.flatMap (fun d =>
              d.files.map (fun f => (pyReplace placeholder version d.relPath, f))))
        ∧ (∀ s : List Char, (¬ ∃ a b, s = a ++ placeholder.data ++ b) →
            listReplace placeholder.data version.data s = s)
        ∧ (placeholder.data ≠ [] → ∀ a b : List Char,
            (∀ a₁ a₂, a = a₁ ++ a₂ → a₂ ≠ [] →
              ¬ placeholder.data <+: (a₂ ++ placeholder.data ++ b)) →
            listReplace placeholder.data version.data (a ++ placeholder.data ++ b) =
              a ++ version.data ++ listReplace placeholder.data version.data b) := by
  intro placeholder version cfg walk hv
  refine ⟨?_, listReplace_eq_self_of_no_occurrence _ _,
    fun hp => listReplace_leftmost _ _ hp⟩
  simp [ReplaceApexVersionPlaceholder, hv]

/-- C2 (witness): the staging step on a concrete input: the table content and
the directory path are rewritten, the filename is not. -/
theorem ReplaceApexVersionPlaceholder_rewrites_dirs_not_filenames_witness :
    ReplaceApexVersionPlaceholder "@V@" "7" (some "x/@V@/y") [⟨"lib/@V@", ["a.so"]⟩] =
      .ok ((some "x/@V@/y").map (fun content => pyReplace "@V@" "7" content),
        [(⟨"lib/@V@", ["a.so"]⟩ : WalkDir)].flatMap (fun d =>
          d.files.map (fun f => (pyReplace "@V@" "7" d.relPath, f)))) :=
  (ReplaceApexVersionPlaceholder_rewrites_dirs_not_filenames "@V@" "7"
    (some "x/@V@/y") [⟨"lib/@V@", ["a.so"]⟩] (by decide)).1

/-- C3 (counterexample): the version string made of the digit one followed by
a newline contains a character outside `[A-Za-z0-9_.-]`, yet validation
passes (Python's `$` matches before a single trailing newline), so staging
preparation does not fail with `UnsafeVersionString`. -/
theorem UnsafeVersionString_trailing_newline_counterexample :
    ('\n' ∈ ("1\n" : String).data ∧ isVersionChar '\n' = false) ∧
      ReplaceApexVersionPlaceholder "__APEX_VERSION_PLACEHOLDER__" "1\n" none [] =
        .ok (none, []) :=
  ⟨by decide, rfl⟩

/-- C3 (amended): validation accepts exactly the non-empty strings over
`[A-Za-z0-9_.-]` optionally followed by one trailing newline; every other
version string — in particular every other string containing a character
outside the set — makes staging preparation fail with `UnsafeVersionString`
before any copying or rewriting, and every accepted string proceeds. -/
theorem version_validation_characterization :
    ∀ (placeholder version : String) (cfg : Option String) (walk : List WalkDir),
      (ReplaceApexVersionPlaceholder placeholder version cfg walk =
          .error .UnsafeVersionString ↔
        ¬ ((version.data ≠ [] ∧ ∀ c ∈ version.data, isVersionChar c = true) ∨
          (∃ w, version.data = w ++ ['\n'] ∧ w ≠ [] ∧
            ∀ c ∈ w, isVersionChar c = true))) ∧
      ((∃ out, ReplaceApexVersionPlaceholder placeholder version cfg walk = .ok out) ↔
        ((version.data ≠ [] ∧ ∀ c ∈ version.data, isVersionChar c = true) ∨
          (∃ w, version.data = w ++ ['\n'] ∧ w ≠ [] ∧
            ∀ c ∈ w, isVersionChar c = true))) := by
  intro placeholder version cfg walk
  rw [← versionRegexMatches_iff]
  by_cases hv : versionRegexMatches version.data = true
  · constructor
    · simp [ReplaceApexVersionPlaceholder, hv]
    · simp [ReplaceApexVersionPlaceholder, hv]
  · rw [Bool.not_eq_true] at hv
    constructor
    · simp [ReplaceApexVersionPlaceholder, hv]
    · simp [ReplaceApexVersionPlaceholder, hv]

/-- C3 (witness): the characterization applied to the version string made of
a letter and an exclamation mark: rejected with `UnsafeVersionString`. -/
theorem version_validation_characterization_witness :
    ReplaceApexVersionPlaceholder "__APEX_VERSION_PLACEHOLDER__" "a!" none [] =
      .error .UnsafeVersionString :=
  (version_validation_characterization "__APEX_VERSION_PLACEHOLDER__" "a!" none []).1.mpr
    (by
      rintro (⟨hne, hall⟩ | ⟨w, hw, hne, hall⟩)
      · exact absurd (hall '!' (by decide)) (by decide)
      · have h := congrArg List.getLast? hw
        rw [List.getLast?_concat] at h
        exact absurd h (by decide))

/-- C4 (counterexample): for a staging tree holding one directory of size
4096 and one 1-byte file, the formatted byte size
`(GetDirSize // 1MiB + 16) MiB = 16 MiB` differs from the claimed
`GetDirSize + 16 MiB = 8192 + 16 MiB`: the staged byte-size is floor-divided
to whole mebibytes before the margin is added, not added byte-exactly. -/
theorem CreateImageExt4_size_claim_counterexample :
    (CreateImageExt4Params [⟨4096, 0, [1], 0⟩] []).sizeInMb * (1024 * 1024) ≠
      GetDirSize [⟨4096, 0, [1], 0⟩] + 16 * 1024 * 1024 := by
  decide

/-- C4 (amended): the ext4 backend formats the image with a size of
`GetDirSize(staging) // 1MiB + 16` mebibytes — the total staged byte-size
(each directory and regular file rounded up to the 4096-byte block size and
summed) floor-divided to whole mebibytes, plus the fixed 16 MiB margin — and
with inode count equal to the entry count under the staging directory plus
the entry count under the manifests directory plus 11 reserved inodes. -/
theorem CreateImageExt4_sizing_formula :
    ∀ stagingWalk manifestsWalk : List WalkEntry,
      (CreateImageExt4Params stagingWalk manifestsWalk).sizeInMb =
          GetDirSize stagingWalk / (1024 * 1024) + 16 ∧
        (CreateImageExt4Params stagingWalk manifestsWalk).inodeNum =
          GetFilesAndDirsCount stagingWalk + GetFilesAndDirsCount manifestsWalk + 11 ∧
        ∀ n, BLOCK_SIZE ∣ RoundUp n BLOCK_SIZE ∧ n ≤ RoundUp n BLOCK_SIZE := by
  intro s m
  refine ⟨rfl, by simp [CreateImageExt4Params]; omega, fun n => ?_⟩
  obtain ⟨hd, hle, _⟩ := RoundUp_props n BLOCK_SIZE (by decide)
  exact ⟨hd, hle⟩

/-- C4 (witness): the amended sizing formula at the counterexample's staging
tree. -/
theorem CreateImageExt4_sizing_formula_witness :
    (CreateImageExt4Params [⟨4096, 0, [1], 0⟩] []).sizeInMb =
        GetDirSize [⟨4096, 0, [1], 0⟩] / (1024 * 1024) + 16 ∧
      (CreateImageExt4Params [⟨4096, 0, [1], 0⟩] []).inodeNum =
        GetFilesAndDirsCount [⟨4096, 0, [1], 0⟩] + GetFilesAndDirsCount [] + 11 :=
  ⟨(CreateImageExt4_sizing_formula [⟨4096, 0, [1], 0⟩] []).1,
    (CreateImageExt4_sizing_formula [⟨4096, 0, [1], 0⟩] []).2.1⟩

/-- C5: after attaching the footer, the signer resizes the image to exactly
`RoundUp(vbmeta_offset + vbmeta_size, 4096) + 4096`; this size is 4096-byte
aligned and consists of the smallest 4096-aligned size containing the
reported footer extent plus one extra full block. -/
theorem SignImagePartitionSize_minimal_aligned :
    ∀ vbmetaOffset vbmetaSize : Nat,
      SignImagePartitionSize vbmetaOffset vbmetaSize =
          RoundUp (vbmetaOffset + vbmetaSize) BLOCK_SIZE + BLOCK_SIZE ∧
        BLOCK_SIZE ∣ SignImagePartitionSize vbmetaOffset vbmetaSize ∧
        vbmetaOffset + vbmetaSize ≤ RoundUp (vbmetaOffset + vbmetaSize) BLOCK_SIZE ∧
        ∀ m, BLOCK_SIZE ∣ m → vbmetaOffset + vbmetaSize ≤ m →
          RoundUp (vbmetaOffset + vbmetaSize) BLOCK_SIZE ≤ m := by
  intro o s
  obtain ⟨hd, hle, hmin⟩ := RoundUp_props (o + s) BLOCK_SIZE (by decide)
  exact ⟨rfl, Nat.dvd_add hd dvd_rfl, hle, hmin⟩

/-- C5 (witness): at offset 5000 and size 100, the resized partition size is
block aligned, and the rounded extent is at most the aligned bound 8192. -/
theorem SignImagePartitionSize_minimal_aligned_witness :
    BLOCK_SIZE ∣ SignImagePartitionSize 5000 100 ∧
      RoundUp (5000 + 100) BLOCK_SIZE ≤ 8192 :=
  ⟨(SignImagePartitionSize_minimal_aligned 5000 100).2.1,
    (SignImagePartitionSize_minimal_aligned 5000 100).2.2.2 8192 ⟨2, by decide⟩ (by decide)⟩

/-- C6: an erofs image of exactly one 4096-byte page is padded to exactly
8192 bytes by the post-processing step; any other image size is left
unchanged. -/
theorem CreateImageErofs_padding :
    ∀ imageSize : Nat,
      (imageSize = 4096 → CreateImageErofsPostSize imageSize = 8192) ∧
        (imageSize ≠ 4096 → CreateImageErofsPostSize imageSize = imageSize) := by
  intro n
  constructor
  · intro h
    simp [CreateImageErofsPostSize, h]
  · intro h
    simp [CreateImageErofsPostSize, h]

/-- C6 (witness): a 4096-byte image becomes 8192 bytes; a 12288-byte image is
untouched. -/
theorem CreateImageErofs_padding_witness :
    CreateImageErofsPostSize 4096 = 8192 ∧ CreateImageErofsPostSize 12288 = 12288 :=
  ⟨(CreateImageErofs_padding 4096).1 rfl, (CreateImageErofs_padding 12288).2 (by decide)⟩

/-- C7: every external-tool invocation of the pipeline accepts exactly the
exit-code set `{0}`, except the two `sload_f2fs` loader invocations of the
f2fs backend, which accept `{0, 1}`; an exit code outside the accepted set
makes `RunCommand` fail, which aborts the remaining invocation sequence
immediately with no retry. -/
theorem pipeline_expected_exit_codes :
    (∀ (payloadType fsType : String) (unsignedPayload payloadOnly : Bool)
        (erofsImageSize : Nat),
        ∀ inv ∈ CreateApexInvocations payloadType fsType unsignedPayload payloadOnly
          erofsImageSize, expectedOk inv) ∧
      (∀ (unsignedPayload payloadOnly : Bool) (erofsImageSize : Nat),
        (CreateApexInvocations "image" "f2fs" unsignedPayload payloadOnly
            erofsImageSize).countP (fun i => i.tool == "sload_f2fs") = 2) ∧
      (∀ (expected : List Nat) (rc : Nat), rc ∉ expected →
        RunCommandCheck expected rc = .error .ExternalToolFailed) ∧
      (∀ (inv : Invocation) (rc : Nat) (rest : List (Invocation × Nat)),
        rc ∉ inv.expectedReturnValues →
        runInvocations ((inv, rc) :: rest) = .error .ExternalToolFailed) := by
  refine ⟨createApexInvocations_expected, ?_, ?_, ?_⟩
  · intro u po sz
    have hform : CreateApexInvocations "image" "f2fs" u po sz =
        (CreateImageF2fsInvocations ++ (if u then [] else SignImageInvocations)) ++
          (if po then [] else [⟨"aapt2", [0]⟩]) := rfl
    rw [hform]
    cases u <;> cases po <;> decide
  · intro expected rc h
    simp [RunCommandCheck, h]
  · intro inv rc rest h
    simp [runInvocations, RunCommandCheck, h]

/-- C7 (witness): exit code 2 against the default accepted set `{0}` is a
fatal failure, and a failing head invocation aborts the whole sequence. -/
theorem pipeline_expected_exit_codes_witness :
    RunCommandCheck [0] 2 = .error .ExternalToolFailed ∧
      runInvocations [(⟨"mke2fs", [0]⟩, 2), (⟨"resize2fs", [0]⟩, 0)] =
        .error .ExternalToolFailed :=
  ⟨pipeline_expected_exit_codes.2.2.1 [0] 2 (by decide),
    pipeline_expected_exit_codes.2.2.2 ⟨"mke2fs", [0]⟩ 2 [(⟨"resize2fs", [0]⟩, 0)]
      (by decide)⟩

/-- C8: the salt `SignImage` passes to the signing tool is the SHA-256 hex
digest of the manifest's serialized bytes (the SHA-256 model is validated
against the FIPS 180-4 test vectors for "abc" and the empty message), and
manifests with equal serialized bytes get equal salts; that different
serialized bytes yield different salts is the collision resistance of
SHA-256, a cryptographic property holding for the construction by design. -/
theorem SignImageSalt_sha256_of_serialized_manifest :
    (∀ m : ApexManifest, SignImageSalt m = sha256Hex m.serialized) ∧
      (∀ m₁ m₂ : ApexManifest, m₁.serialized = m₂.serialized →
        SignImageSalt m₁ = SignImageSalt m₂) ∧
      sha256Hex [97, 98, 99] =
        "ba7816bf8f01cfea414140de5dae2223b00361a396177a9cb410ff61f20015ad" ∧
      sha256Hex [] =
        "e3b0c44298fc1c149afbf4c8996fb92427ae41e4649b934ca495991b7852b855" := by
  refine ⟨fun m => rfl, fun m₁ m₂ h => ?_, by decide, by decide⟩
  unfold SignImageSalt
  rw [h]

/-- C8 (witness): two manifests differing in every schema field but sharing
serialized bytes get the same salt. -/
theorem SignImageSalt_sha256_of_serialized_manifest_witness :
    SignImageSalt ⟨"com.a", 1, none, [10, 20]⟩ =
      SignImageSalt ⟨"com.b", 2, some "x", [10, 20]⟩ :=
  SignImageSalt_sha256_of_serialized_manifest.2.1
    ⟨"com.a", 1, none, [10, 20]⟩ ⟨"com.b", 2, some "x", [10, 20]⟩ rfl

/-- C9 (counterexample): a configuration whose output path exists and whose
force flag is unset, but whose manifest is missing, fails with the earlier
manifest error, not with `OutputAlreadyExists`; the output-exists check is
not the first validation check. -/
theorem OutputAlreadyExists_not_sole_failure_counterexample :
    envMissingManifestExistingOutput.outputExists = true ∧
      envMissingManifestExistingOutput.force = false ∧
      CreateApexTrace envMissingManifestExistingOutput = (.error .ManifestNotFound, []) ∧
      ApexerError.ManifestNotFound ≠ ApexerError.OutputAlreadyExists :=
  ⟨rfl, rfl, rfl, by decide⟩

/-- C9 (amended): for every configuration passing the validation checks that
precede the output check (build-info, manifest, optional AndroidManifest,
input directory), an existing output path with the force flag unset makes
`ValidateArgs` fail with `OutputAlreadyExists`, and the build performs no
external-tool invocation — validation happens before any staging or image
construction. -/
theorem OutputAlreadyExists_before_any_tool :
    ∀ e : ApexerEnv,
      (e.buildInfoProvided = true → e.buildInfoExists = true) →
      e.manifestExists = true → e.manifestIsFile = true →
      (e.androidManifestProvided = true →
        e.androidManifestExists = true ∧ e.androidManifestIsFile = true) →
      e.inputDirExists = true → e.inputDirIsDir = true →
      e.outputExists = true → e.force = false →
      ValidateArgs e = .error .OutputAlreadyExists ∧
        CreateApexTrace e = (.error .OutputAlreadyExists, []) := by
  intro e h1 h2 h3 h4 h5 h6 h7 h8
  have c1 : (e.buildInfoProvided && !e.buildInfoExists) = false := by
    cases hb : e.buildInfoProvided
    · rfl
    · simp [h1 hb]
  have c4 : (e.androidManifestProvided && !e.androidManifestExists) = false := by
    cases hb : e.androidManifestProvided
    · rfl
    · simp [(h4 hb).1]
  have c5 : (e.androidManifestProvided && !e.androidManifestIsFile) = false := by
    cases hb : e.androidManifestProvided
    · rfl
    · simp [(h4 hb).2]
  have hv : ValidateArgs e = .error .OutputAlreadyExists := by
    unfold ValidateArgs
    simp [c1, c4, c5, h2, h3, h5, h6, h7, h8]
  refine ⟨hv, ?_⟩
  unfold CreateApexTrace
  rw [hv]

/-- C9 (witness): the amended theorem at a concrete configuration. -/
theorem OutputAlreadyExists_before_any_tool_witness :
    ValidateArgs envOutputExists = .error .OutputAlreadyExists ∧
      CreateApexTrace envOutputExists = (.error .OutputAlreadyExists, []) :=
  OutputAlreadyExists_before_any_tool envOutputExists (fun h => nomatch h) rfl rfl
    (fun h => nomatch h) rfl rfl rfl rfl

/-- C10: the empty version string has every character inside the allowed set
(vacuously), yet staging preparation rejects it with `UnsafeVersionString`:
the regex requires at least one character. -/
theorem empty_version_rejected :
    ∀ (placeholder : String) (cfg : Option String) (walk : List WalkDir),
      ReplaceApexVersionPlaceholder placeholder "" cfg walk =
          .error .UnsafeVersionString ∧
        ("" : String).data.all isVersionChar = true :=
  fun placeholder cfg walk => ⟨rfl, rfl⟩

/-- C10 (witness): the rejection at the default placeholder with no table and
an empty walk. -/
theorem empty_version_rejected_witness :
    ReplaceApexVersionPlaceholder "__APEX_VERSION_PLACEHOLDER__" "" none [] =
        .error .UnsafeVersionString ∧
      ("" : String).data.all isVersionChar = true :=
  empty_version_rejected "__APEX_VERSION_PLACEHOLDER__" none []

end Apexer

